import Mathlib

/-!
Verification development for the lox-vm repository: a shallow embedding of the
scanner, Pratt compiler, bytecode chunk and stack VM, with theorems checking the
natural-language specification against the code.

Embedding conventions:
* Rust machine floats (f64) are modelled exactly, as unnormalized integer
  fractions (numerator/denominator); every numeric literal in the checked
  claims is a small integer, where this model agrees with f64 arithmetic.
  IEEE rounding, infinities and NaN are outside the model.
* Rust Vec-based stacks are modelled as Lean lists with the top at the head
  (Vec push/pop at the back correspond to cons/head).
* Rust panics (unwrap/expect on None or Err, todo!, unreachable!) are modelled
  as an explicit panicked outcome; fallible Rust functions returning
  anyhow::Result are modelled with an explicit error outcome carrying the
  mutated state, since the Rust caller keeps running with that state.
* Unbounded Rust loops are modelled with an explicit fuel parameter and a
  distinct fuel-exhaustion outcome.
-/

set_option maxRecDepth 100000

namespace Lox

/-- Exact model of Rust f64: an unnormalized fraction num/den with den > 0 for
every value the embedded code constructs. Arithmetic is exact rational
arithmetic, which coincides with f64 for the small integer values the claims
evaluate. -/
structure F64 where
  num : Int
  den : Nat
deriving Repr, DecidableEq

def F64.add (a b : F64) : F64 := ⟨a.num * b.den + b.num * a.den, a.den * b.den⟩

def F64.sub (a b : F64) : F64 := ⟨a.num * b.den - b.num * a.den, a.den * b.den⟩

def F64.mul (a b : F64) : F64 := ⟨a.num * b.num, a.den * b.den⟩

/-- Division of the fraction model. Division by zero yields a denominator of 0
(the IEEE infinity/NaN results are outside the model; no checked claim
divides). -/
def F64.div (a b : F64) : F64 :=
  ⟨a.num * b.den * (if b.num < 0 then -1 else 1), a.den * b.num.natAbs⟩

def F64.negF (a : F64) : F64 := ⟨-a.num, a.den⟩

/-- Numeric equality of two fractions (cross multiplication; dens are
positive), matching f64 PartialEq on the modelled values. -/
def F64.beq (a b : F64) : Bool := a.num * (b.den : Int) == b.num * (a.den : Int)

/-- Numeric comparison of two fractions, matching f64 partial_cmp on the
modelled (non-NaN) values. -/
def F64.cmp (a b : F64) : Ordering :=
  let x := a.num * (b.den : Int)
  let y := b.num * (a.den : Int)
  if x < y then .lt else if x == y then .eq else .gt

def F64.ofNat (n : Nat) : F64 := ⟨(n : Int), 1⟩

/-- Decimal digits of the fractional part r/d (0 ≤ r < d), at most fuel many,
stopping when the expansion terminates. -/
def F64.fracDigits : Nat → Nat → Nat → List Char
  | 0, _, _ => []
  | _, 0, _ => []
  | fuel + 1, r, d =>
    let r10 := r * 10
    Char.ofNat (48 + r10 / d) :: F64.fracDigits fuel (r10 % d) d

/-- Display form of a number, following the Rust Display impl of f64 on the
modelled values: integers print without a decimal point (the only case the
claims exercise), other values print as sign, integer part, dot, fractional
digits. -/
def F64.display (a : F64) : String :=
  if a.den = 0 then "inf"
  else
    let n := a.num.natAbs
    let sign := if a.num < 0 then "-" else ""
    let ip := n / a.den
    let r := n % a.den
    if r = 0 then sign ++ toString ip
    else sign ++ toString ip ++ "." ++ String.mk (F64.fracDigits 17 r a.den)

/-- ObjType from chunk.rs: the only current heap payload is a string. -/
inductive ObjType where
  | string (s : String)
deriving Repr, DecidableEq

/-- Obj from chunk.rs: a heap payload plus the latent optional back-link
(objects field), unused by every current operation but part of the type. -/
inductive Obj where
  | mk (objType : ObjType) (objects : Option Obj)
deriving Repr

/-- Value from chunk.rs: the closed tagged union of runtime values. -/
inductive Value where
  | nil
  | bool (b : Bool)
  | number (n : F64)
  | obj (o : Obj)
deriving Repr

def Value.from_string (s : String) : Value := .obj (.mk (.string s) none)

def Value.is_falsey : Value → Bool
  | .nil => true
  | .bool v => !v
  | _ => false

/-- Byte-order comparison of chars, as Rust compares string bytes (UTF-8 byte
order equals scalar-value order). -/
def charCmp (a b : Char) : Ordering :=
  if a.toNat < b.toNat then .lt else if a.toNat == b.toNat then .eq else .gt

def charsCmp : List Char → List Char → Ordering
  | [], [] => .eq
  | [], _ :: _ => .lt
  | _ :: _, [] => .gt
  | a :: as, b :: bs =>
    match charCmp a b with
    | .eq => charsCmp as bs
    | r => r

def strCmp (a b : String) : Ordering := charsCmp a.data b.data

def ObjType.cmpOT : ObjType → ObjType → Ordering
  | .string a, .string b => strCmp a b

mutual
/-- Derived lexicographic ordering of Obj (field objType, then field objects),
as produced by the Rust derive of PartialOrd on Obj. It is total because no
Obj field contains a float. -/
def Obj.cmpObj : Obj → Obj → Ordering
  | .mk t1 o1, .mk t2 o2 =>
    match ObjType.cmpOT t1 t2 with
    | .eq => cmpOptObj o1 o2
    | r => r

/-- Derived ordering of Option (None < Some), as in Rust. -/
def cmpOptObj : Option Obj → Option Obj → Ordering
  | none, none => .eq
  | none, some _ => .lt
  | some _, none => .gt
  | some a, some b => Obj.cmpObj a b
end

mutual
/-- Derived structural equality of Obj, as produced by the Rust derive of
PartialEq on Obj. -/
def Obj.eqObj : Obj → Obj → Bool
  | .mk t1 o1, .mk t2 o2 =>
    (match t1, t2 with
     | .string a, .string b => a == b) && eqOptObj o1 o2

def eqOptObj : Option Obj → Option Obj → Bool
  | none, none => true
  | some a, some b => Obj.eqObj a b
  | _, _ => false
end

/-- Discriminant index of a Value variant, in declaration order
(Nil, Bool, Number, Obj), used by the derived comparisons. -/
def Value.idx : Value → Nat
  | .nil => 0
  | .bool _ => 1
  | .number _ => 2
  | .obj _ => 3

def boolCmp : Bool → Bool → Ordering
  | false, true => .lt
  | true, false => .gt
  | _, _ => .eq

/-- Derived PartialOrd::partial_cmp of Value: discriminants first
(declaration order), then contents. The only None source in the Rust code is
a NaN float, which the numeric model excludes, so the number case is total
here. -/
def Value.partial_cmp (a b : Value) : Option Ordering :=
  match a, b with
  | .nil, .nil => some .eq
  | .bool x, .bool y => some (boolCmp x y)
  | .number x, .number y => some (F64.cmp x y)
  | .obj x, .obj y => some (Obj.cmpObj x y)
  | _, _ => if a.idx < b.idx then some .lt else some .gt

/-- Rust operator a > b via PartialOrd: true exactly when partial_cmp returns
Some(Greater); incomparable pairs give false. -/
def Value.gtB (a b : Value) : Bool := Value.partial_cmp a b == some .gt

/-- Rust operator a < b via PartialOrd: true exactly when partial_cmp returns
Some(Less); incomparable pairs give false. -/
def Value.ltB (a b : Value) : Bool := Value.partial_cmp a b == some .lt

/-- Derived PartialEq of Value (structural; numbers by numeric equality). -/
def Value.eqB : Value → Value → Bool
  | .nil, .nil => true
  | .bool a, .bool b => a == b
  | .number a, .number b => F64.beq a b
  | .obj a, .obj b => Obj.eqObj a b
  | _, _ => false

/-- Display impl of Value from chunk.rs (also what name.to_string() produces
in the VM's global-variable instructions). -/
def Value.display : Value → String
  | .number n => F64.display n
  | .bool b => if b then "true" else "false"
  | .nil => "nil"
  | .obj (.mk (.string s) _) => s

/-- EvaluationError from error.rs (spelling kept from the source). -/
inductive EvaluationError where
  | comparision (s : String)
  | negation
  | arithmatic (s : String)
  | stringConcatination
deriving Repr, DecidableEq

/-- Add impl of Value: numbers add, strings concatenate, every other pairing
is an arithmetic error naming "add". -/
def Value.addV : Value → Value → Except EvaluationError Value
  | .number a, .number b => .ok (.number (a.add b))
  | .obj (.mk (.string a) _), .obj (.mk (.string b) _) =>
    .ok (.obj (.mk (.string (a ++ b)) none))
  | _, _ => .error (.arithmatic "add")

def Value.subV : Value → Value → Except EvaluationError Value
  | .number a, .number b => .ok (.number (a.sub b))
  | _, _ => .error (.arithmatic "subtract")

def Value.mulV : Value → Value → Except EvaluationError Value
  | .number a, .number b => .ok (.number (a.mul b))
  | _, _ => .error (.arithmatic "multiply")

def Value.divV : Value → Value → Except EvaluationError Value
  | .number a, .number b => .ok (.number (a.div b))
  | _, _ => .error (.arithmatic "divide")

def Value.negV : Value → Except EvaluationError Value
  | .number a => .ok (.number a.negF)
  | _ => .error .negation

/-- Opcode set of a chunk. Variants ret..less carry byte values 0..13 exactly
as in the chunk.rs OpCode enum and its TryFrom<u8> impl. Modelled from the
spec: the five variants print, pop, defineGlobal, getGlobal, setGlobal are
used by compiler.rs and vm.rs but their declaration is missing from the
chunk.rs snapshot; they are appended in the order the VM matches them, with
byte values 14..18 — pop = 15 is pinned by the repository's own compiler
tests (test::basic expects byte 15 for the pop of an expression statement). -/
inductive OpCode where
  | ret
  | constant
  | nilOp
  | trueOp
  | falseOp
  | negate
  | notOp
  | add
  | subtract
  | multiply
  | divide
  | equal
  | greater
  | less
  | print
  | pop
  | defineGlobal
  | getGlobal
  | setGlobal
deriving Repr, DecidableEq

/-- From<OpCode> for u8: the byte encoding of each opcode. -/
def OpCode.toU8 : OpCode → Nat
  | .ret => 0
  | .constant => 1
  | .nilOp => 2
  | .trueOp => 3
  | .falseOp => 4
  | .negate => 5
  | .notOp => 6
  | .add => 7
  | .subtract => 8
  | .multiply => 9
  | .divide => 10
  | .equal => 11
  | .greater => 12
  | .less => 13
  | .print => 14
  | .pop => 15
  | .defineGlobal => 16
  | .getGlobal => 17
  | .setGlobal => 18

/-- ChunkError from the code (the variant is referenced by chunk.rs's
TryFrom impl; its declaration is in the missing part of error.rs). -/
inductive ChunkError where
  | unknownOpCode (n : Nat)
deriving Repr, DecidableEq

/-- TryFrom<u8> for OpCode: decode a byte, failing on any unrecognized
byte. Bytes 0..13 are from the chunk.rs snapshot; 14..18 follow the appended
variants (see OpCode). -/
def OpCode.try_from (n : Nat) : Except ChunkError OpCode :=
  match n with
  | 0 => .ok .ret
  | 1 => .ok .constant
  | 2 => .ok .nilOp
  | 3 => .ok .trueOp
  | 4 => .ok .falseOp
  | 5 => .ok .negate
  | 6 => .ok .notOp
  | 7 => .ok .add
  | 8 => .ok .subtract
  | 9 => .ok .multiply
  | 10 => .ok .divide
  | 11 => .ok .equal
  | 12 => .ok .greater
  | 13 => .ok .less
  | 14 => .ok .print
  | 15 => .ok .pop
  | 16 => .ok .defineGlobal
  | 17 => .ok .getGlobal
  | 18 => .ok .setGlobal
  | n => .error (.unknownOpCode n)

/-- Chunk from chunk.rs: bytecode, constant pool and per-byte line table.
The Array of 256 default-initialized Value slots is modelled as the list of
written constants; read_constant returns Nil for unwritten slots exactly as
the defaulted array does. -/
structure Chunk where
  code : List Nat
  constants : List Value
  lines : List Nat
deriving Repr

def Chunk.new : Chunk := ⟨[], [], []⟩

def Chunk.write (c : Chunk) (byte : Nat) (line : Nat) : Chunk :=
  { c with code := c.code ++ [byte], lines := c.lines ++ [line] }

/-- Chunk::add_constant: fails with the dedicated "too many constants" error
when the pool already holds 256 values; otherwise appends and returns the new
index (head - 1 after the write, i.e. the old length). -/
def Chunk.add_constant (c : Chunk) (v : Value) : Except String (Nat × Chunk) :=
  if c.constants.length ≥ 256 then .error "too many constants in this chunk"
  else .ok (c.constants.length, { c with constants := c.constants ++ [v] })

def Chunk.read_constant (c : Chunk) (loc : Nat) : Value := c.constants.getD loc .nil

/-- TokenType from token.rs; keyword variants carry a Kw suffix where the Rust
name is a Lean keyword (the whole group is suffixed uniformly). -/
inductive TokenType where
  | leftParen
  | rightParen
  | leftBrace
  | rightBrace
  | comma
  | dot
  | minus
  | plus
  | semicolon
  | slash
  | star
  | bang
  | bangEqual
  | equal
  | equalEqual
  | greater
  | greaterEqual
  | less
  | lessEqual
  | identifier
  | string
  | number
  | andKw
  | classKw
  | elseKw
  | falseKw
  | funKw
  | forKw
  | ifKw
  | nilKw
  | orKw
  | printKw
  | returnKw
  | superKw
  | thisKw
  | trueKw
  | varKw
  | whileKw
  | eof
deriving Repr, DecidableEq

/-- Token from token.rs. -/
structure Token where
  token_type : TokenType
  lexeme : String
  line : Nat
deriving Repr, DecidableEq

def Token.new (t : TokenType) (lexeme : String) (line : Nat) : Token :=
  ⟨t, lexeme, line⟩

/-- ErrorLoc from error.rs. -/
structure ErrorLoc where
  line : Nat
  atPos : Nat
deriving Repr, DecidableEq

/-- ParseError from error.rs. -/
inductive ParseError where
  | expectedToken (t : TokenType)
  | unterminatedString (loc : ErrorLoc)
  | unknownTokenType
deriving Repr, DecidableEq

/-- FromStr for TokenType: the exact-match keyword (and punctuation) table of
token.rs, including its quirk of mapping the square brackets to the brace
token types. -/
def TokenType.from_str (s : String) : Except ParseError TokenType :=
  if s = "(" then .ok .leftParen
  else if s = ")" then .ok .rightParen
  else if s = "[" then .ok .leftBrace
  else if s = "]" then .ok .rightBrace
  else if s = "," then .ok .comma
  else if s = "." then .ok .dot
  else if s = "-" then .ok .minus
  else if s = "+" then .ok .plus
  else if s = ";" then .ok .semicolon
  else if s = "/" then .ok .slash
  else if s = "*" then .ok .star
  else if s = "!" then .ok .bang
  else if s = "!=" then .ok .bangEqual
  else if s = "=" then .ok .equal
  else if s = "==" then .ok .equalEqual
  else if s = ">" then .ok .greater
  else if s = ">=" then .ok .greaterEqual
  else if s = "<" then .ok .less
  else if s = "<=" then .ok .lessEqual
  else if s = "and" then .ok .andKw
  else if s = "class" then .ok .classKw
  else if s = "else" then .ok .elseKw
  else if s = "for" then .ok .forKw
  else if s = "fun" then .ok .funKw
  else if s = "false" then .ok .falseKw
  else if s = "if" then .ok .ifKw
  else if s = "nil" then .ok .nilKw
  else if s = "or" then .ok .orKw
  else if s = "print" then .ok .printKw
  else if s = "return" then .ok .returnKw
  else if s = "super" then .ok .superKw
  else if s = "this" then .ok .thisKw
  else if s = "true" then .ok .trueKw
  else if s = "var" then .ok .varKw
  else if s = "while" then .ok .whileKw
  else .error .unknownTokenType

def isAsciiDigit (c : Char) : Bool := 48 ≤ c.toNat && c.toNat ≤ 57

def isAsciiAlpha (c : Char) : Bool :=
  (65 ≤ c.toNat && c.toNat ≤ 90) || (97 ≤ c.toNat && c.toNat ≤ 122)

/-- Scanner from scanner.rs: the source (as its character sequence, matching
the chars()-based cursoring of the Rust code) plus start/current/line. -/
structure Scanner where
  source : List Char
  start : Nat
  current : Nat
  line : Nat
deriving Repr, DecidableEq

def Scanner.mkNew (source : String) : Scanner := ⟨source.data, 0, 0, 1⟩

def Scanner.peek (s : Scanner) : Option Char := s.source.get? s.current

def Scanner.peek_next (s : Scanner) : Option Char := s.source.get? (s.current + 1)

/-- Scanner::next: advance current, return the character just passed. -/
def Scanner.nextC (s : Scanner) : Option Char × Scanner :=
  (s.source.get? s.current, { s with current := s.current + 1 })

def Scanner.next_is (s : Scanner) (c : Char) : Bool × Scanner :=
  if s.peek = some c then (true, { s with current := s.current + 1 })
  else (false, s)

def Scanner.make_token (s : Scanner) (t : TokenType) : Token :=
  Token.new t (String.mk ((s.source.drop s.start).take (s.current - s.start))) s.line

/-- Inner while of the // comment arm of skip_whitespace: consume up to (not
including) the next newline or end of input. -/
def Scanner.skipComment : Nat → Scanner → Option Scanner
  | 0, _ => none
  | fuel + 1, s =>
    match s.peek with
    | some c =>
      if c = '\n' then some s
      else Scanner.skipComment fuel { s with current := s.current + 1 }
    | none => some s

/-- Scanner::skip_whitespace (fuel-bounded; none = fuel ran out). -/
def Scanner.skip_whitespace : Nat → Scanner → Option Scanner
  | 0, _ => none
  | fuel + 1, s =>
    match s.peek with
    | none => some s
    | some c =>
      if c = ' ' || c = '\r' || c = '\t' then
        Scanner.skip_whitespace fuel { s with current := s.current + 1 }
      else if c = '\n' then
        Scanner.skip_whitespace fuel { s with line := s.line + 1, current := s.current + 1 }
      else if c = '/' then
        if s.peek_next = some '/' then
          match Scanner.skipComment fuel s with
          | none => none
          | some s2 => Scanner.skip_whitespace fuel s2
        else some s
      else some s

/-- While loop of Scanner::string: consume until the closing quote or end of
input, counting newlines. -/
def Scanner.stringLoop : Nat → Scanner → Option Scanner
  | 0, _ => none
  | fuel + 1, s =>
    match s.peek with
    | some c =>
      if c = '"' then some s
      else if c = '\n' then
        Scanner.stringLoop fuel { s with line := s.line + 1, current := s.current + 1 }
      else Scanner.stringLoop fuel { s with current := s.current + 1 }
    | none => some s

def Scanner.digitLoop : Nat → Scanner → Option Scanner
  | 0, _ => none
  | fuel + 1, s =>
    match s.peek with
    | some c =>
      if isAsciiDigit c then Scanner.digitLoop fuel { s with current := s.current + 1 }
      else some s
    | none => some s

def Scanner.identLoop : Nat → Scanner → Option Scanner
  | 0, _ => none
  | fuel + 1, s =>
    match s.peek with
    | some c =>
      if isAsciiAlpha c || isAsciiDigit c || c = '_' then
        Scanner.identLoop fuel { s with current := s.current + 1 }
      else some s
    | none => some s

/-- Outcome of one scan_token call: a token, a lexical error (both carrying
the mutated scanner), a panic (modelling todo!), or fuel exhaustion. -/
inductive ScanRes where
  | tok (t : Token) (s : Scanner)
  | lexErr (e : ParseError) (s : Scanner)
  | panicked (msg : String)
  | fuelOut
deriving Repr, DecidableEq

/-- Scanner::string (after the opening quote was consumed). -/
def Scanner.stringTok (fuel : Nat) (s : Scanner) : ScanRes :=
  match Scanner.stringLoop fuel s with
  | none => .fuelOut
  | some s2 =>
    match s2.peek with
    | none => .lexErr (.unterminatedString ⟨s2.line, s2.start⟩) s2
    | some _ =>
      let s3 := { s2 with current := s2.current + 1 }
      .tok (s3.make_token .string) s3

/-- Scanner::number: a maximal digit run, then a dot plus fractional digits
only when at least one digit follows the dot. -/
def Scanner.numberTok (fuel : Nat) (s : Scanner) : ScanRes :=
  match Scanner.digitLoop fuel s with
  | none => .fuelOut
  | some s2 =>
    if s2.peek = some '.' && (s2.peek_next.map isAsciiDigit).getD false then
      let s3 := { s2 with current := s2.current + 1 }
      match Scanner.digitLoop fuel s3 with
      | none => .fuelOut
      | some s4 => .tok (s4.make_token .number) s4
    else .tok (s2.make_token .number) s2

/-- Scanner::identifier: a maximal alphanumeric/underscore run, then the exact
keyword-table lookup. -/
def Scanner.identifierTok (fuel : Nat) (s : Scanner) : ScanRes :=
  match Scanner.identLoop fuel s with
  | none => .fuelOut
  | some s2 =>
    let text := String.mk ((s2.source.drop s2.start).take (s2.current - s2.start))
    match TokenType.from_str text with
    | .ok tt => .tok (s2.make_token tt) s2
    | .error _ => .tok (s2.make_token .identifier) s2

/-- Scanner::scan_token: skip whitespace and comments, then produce the next
token, a lexical error, or — for a character that cannot start any token —
the todo! panic of the scanner snapshot. -/
def Scanner.scan_token (fuel : Nat) (s0 : Scanner) : ScanRes :=
  match Scanner.skip_whitespace fuel s0 with
  | none => .fuelOut
  | some s1 =>
    let s1 := { s1 with start := s1.current }
    match s1.nextC with
    | (none, s2) => .tok (s2.make_token .eof) s2
    | (some c, s2) =>
      if c = '(' then .tok (s2.make_token .leftParen) s2
      else if c = ')' then .tok (s2.make_token .rightParen) s2
      else if c = '{' then .tok (s2.make_token .leftBrace) s2
      else if c = '}' then .tok (s2.make_token .rightBrace) s2
      else if c = ',' then .tok (s2.make_token .comma) s2
      else if c = '.' then .tok (s2.make_token .dot) s2
      else if c = '-' then .tok (s2.make_token .minus) s2
      else if c = '+' then .tok (s2.make_token .plus) s2
      else if c = ';' then .tok (s2.make_token .semicolon) s2
      else if c = '*' then .tok (s2.make_token .star) s2
      else if c = '/' then .tok (s2.make_token .slash) s2
      else if c = '!' then
        match s2.next_is '=' with
        | (true, s3) => .tok (s3.make_token .bangEqual) s3
        | (false, s3) => .tok (s3.make_token .bang) s3
      else if c = '=' then
        match s2.next_is '=' with
        | (true, s3) => .tok (s3.make_token .equalEqual) s3
        | (false, s3) => .tok (s3.make_token .equal) s3
      else if c = '<' then
        match s2.next_is '=' with
        | (true, s3) => .tok (s3.make_token .lessEqual) s3
        | (false, s3) => .tok (s3.make_token .less) s3
      else if c = '>' then
        match s2.next_is '=' with
        | (true, s3) => .tok (s3.make_token .greaterEqual) s3
        | (false, s3) => .tok (s3.make_token .greater) s3
      else if c = '"' then s2.stringTok fuel
      else if isAsciiDigit c then s2.numberTok fuel
      else if isAsciiAlpha c || c = '_' then s2.identifierTok fuel
      else .panicked ("not yet implemented: " ++ String.mk [c])

/-- Precedence from parse.rs, lowest to highest, in declaration order. -/
inductive Precedence where
  | none
  | assignment
  | orP
  | andP
  | equality
  | comparison
  | term
  | factor
  | unary
  | call
  | primary
deriving Repr, DecidableEq

/-- Discriminant index of a precedence level; the derived PartialOrd of the
Rust enum compares these. -/
def Precedence.idx : Precedence → Nat
  | .none => 0
  | .assignment => 1
  | .orP => 2
  | .andP => 3
  | .equality => 4
  | .comparison => 5
  | .term => 6
  | .factor => 7
  | .unary => 8
  | .call => 9
  | .primary => 10

def Precedence.leP (a b : Precedence) : Bool := a.idx ≤ b.idx

def Precedence.gtP (a b : Precedence) : Bool := b.idx < a.idx

/-- Precedence::next from parse.rs, including its saturation at primary. -/
def Precedence.next : Precedence → Precedence
  | .none => .assignment
  | .assignment => .orP
  | .orP => .andP
  | .andP => .equality
  | .equality => .comparison
  | .comparison => .term
  | .term => .factor
  | .factor => .unary
  | .unary => .call
  | .call => .primary
  | .primary => .primary

/-- ParseFn from parse.rs. Modelled from the spec: the variableFn variant
(ParseFn::Variable) is dispatched by compiler.rs but missing from the parse.rs
snapshot; it names the bare-variable-reference prefix action. -/
inductive ParseFn where
  | binary
  | grouping
  | unary
  | number
  | literal
  | string
  | variableFn
  | none
deriving Repr, DecidableEq

/-- ParseRule from parse.rs (field names carry an Fn suffix where the Rust
name is reserved here). -/
structure ParseRule where
  prefixFn : ParseFn
  infixFn : ParseFn
  precedence : Precedence
deriving Repr, DecidableEq

/-- Rule table of parse.rs, keyed by token type. Modelled from the spec: the
identifier entry's prefix action is variableFn (the snapshot predates variables;
compiler.rs's variable machinery and the spec's grammar fix this entry), with
infix and precedence unchanged. Every other entry is from the snapshot. -/
def parse_rule (tt : TokenType) : ParseRule :=
  match tt with
  | .leftParen => ⟨.grouping, .none, .none⟩
  | .rightParen => ⟨.none, .none, .none⟩
  | .leftBrace => ⟨.none, .none, .none⟩
  | .rightBrace => ⟨.none, .none, .none⟩
  | .comma => ⟨.none, .none, .none⟩
  | .dot => ⟨.none, .none, .none⟩
  | .minus => ⟨.unary, .binary, .term⟩
  | .plus => ⟨.none, .binary, .term⟩
  | .semicolon => ⟨.none, .none, .none⟩
  | .slash => ⟨.none, .binary, .factor⟩
  | .star => ⟨.none, .binary, .factor⟩
  | .bang => ⟨.unary, .none, .none⟩
  | .bangEqual => ⟨.none, .binary, .equality⟩
  | .equal => ⟨.none, .none, .none⟩
  | .equalEqual => ⟨.none, .binary, .equality⟩
  | .greater => ⟨.none, .binary, .comparison⟩
  | .greaterEqual => ⟨.none, .binary, .comparison⟩
  | .less => ⟨.none, .binary, .comparison⟩
  | .lessEqual => ⟨.none, .binary, .comparison⟩
  | .identifier => ⟨.variableFn, .none, .none⟩
  | .string => ⟨.string, .none, .none⟩
  | .number => ⟨.number, .none, .none⟩
  | .andKw => ⟨.none, .none, .none⟩
  | .classKw => ⟨.none, .none, .none⟩
  | .elseKw => ⟨.none, .none, .none⟩
  | .falseKw => ⟨.literal, .none, .none⟩
  | .forKw => ⟨.none, .none, .none⟩
  | .funKw => ⟨.none, .none, .none⟩
  | .ifKw => ⟨.none, .none, .none⟩
  | .nilKw => ⟨.literal, .none, .none⟩
  | .orKw => ⟨.none, .none, .none⟩
  | .printKw => ⟨.none, .none, .none⟩
  | .returnKw => ⟨.none, .none, .none⟩
  | .superKw => ⟨.none, .none, .none⟩
  | .thisKw => ⟨.none, .none, .none⟩
  | .trueKw => ⟨.literal, .none, .none⟩
  | .varKw => ⟨.none, .none, .none⟩
  | .whileKw => ⟨.none, .none, .none⟩
  | .eof => ⟨.none, .none, .none⟩

/-- Parser state from parse.rs. -/
structure Parser where
  current : Option Token
  previous : Option Token
  had_error : Bool
  panic_mode : Bool
deriving Repr, DecidableEq

def Parser.new : Parser := ⟨none, none, false, false⟩

/-- Parser::advance: previous takes current, current is cleared. -/
def Parser.advanceP (p : Parser) : Parser :=
  { p with previous := p.current, current := none }

/-- Compiler state from compiler.rs. -/
structure Compiler where
  parser : Parser
  scanner : Scanner
  compiling_chunk : Chunk
deriving Repr

def Compiler.mkNew (source : String) : Compiler :=
  ⟨Parser.new, Scanner.mkNew source, Chunk.new⟩

/-- Outcome of a compiler operation: a value with the mutated compiler, a Rust
Err (anyhow) with the mutated compiler — the caller decides whether to
propagate, discard or unwrap it — a panic, or fuel exhaustion. -/
inductive CompRes (α : Type) where
  | ok (a : α) (c : Compiler)
  | rustErr (msg : String) (c : Compiler)
  | panicked (msg : String)
  | fuelOut

/-- Sequencing that propagates a Rust Err, as the ? operator does. -/
def CompRes.bind : CompRes α → (α → Compiler → CompRes β) → CompRes β
  | .ok a c, k => k a c
  | .rustErr m c, _ => .rustErr m c
  | .panicked m, _ => .panicked m
  | .fuelOut, _ => .fuelOut

/-- Result discarding, as a Rust `let _ =` binding: an Err is dropped and the
caller continues with the mutated state. -/
def CompRes.discard : CompRes α → CompRes Unit
  | .ok _ c => .ok () c
  | .rustErr _ c => .ok () c
  | .panicked m => .panicked m
  | .fuelOut => .fuelOut

/-- Rust .unwrap() on a Result: an Err becomes a panic. -/
def CompRes.unwrapR : CompRes α → (α → Compiler → CompRes β) → CompRes β
  | .ok a c, k => k a c
  | .rustErr m _, _ => .panicked m
  | .panicked m, _ => .panicked m
  | .fuelOut, _ => .fuelOut

/-- Compiler::error_at: with panic mode already set the diagnostic is
suppressed and nothing changes; otherwise panic mode is entered, the
diagnostic is emitted (to stderr, outside this model) and the had-error flag
is set. -/
def Compiler.error_at (c : Compiler) (_tok : Token) (_msg : String) : Compiler :=
  if c.parser.panic_mode then c
  else { c with parser := { c.parser with panic_mode := true, had_error := true } }

/-- Compiler::error: report at the previous token (unwrap panics when there is
none). -/
def Compiler.errorP (c : Compiler) (msg : String) : CompRes Unit :=
  match c.parser.previous with
  | none => .panicked "unwrap on None previous"
  | some t => .ok () (c.error_at t msg)

/-- Compiler::error_at_current (unwrap panics when there is no current
token). -/
def Compiler.error_at_current (c : Compiler) (msg : String) : CompRes Unit :=
  match c.parser.current with
  | none => .panicked "unwrap on None current"
  | some t => .ok () (c.error_at t msg)

/-- Compiler::advance: shift tokens, then pull one token from the scanner.
When the scanner reports a lexical error the Rust code calls error_at_current
on the just-cleared current token, whose unwrap panics. -/
def Compiler.advanceC (fuel : Nat) (c : Compiler) : CompRes Unit :=
  let c := { c with parser := c.parser.advanceP }
  match Scanner.scan_token fuel c.scanner with
  | .tok t s => .ok () { c with scanner := s, parser := { c.parser with current := some t } }
  | .lexErr _ _ => .panicked "error_at_current: unwrap on None current"
  | .panicked m => .panicked m
  | .fuelOut => .fuelOut

/-- Compiler::consume: advance past the expected token type, otherwise record
the diagnostic and return a Rust Err carrying the message. -/
def Compiler.consume (fuel : Nat) (c : Compiler) (tt : TokenType) (msg : String) :
    CompRes Unit :=
  match c.parser.current with
  | some token =>
    if token.token_type = tt then Compiler.advanceC fuel c
    else .rustErr msg (c.error_at token msg)
  | none => .rustErr "no current token" c

/-- Compiler::current_token_type_is: check the current token's type and
consume it on a match. -/
def Compiler.current_token_type_is (fuel : Nat) (c : Compiler) (tt : TokenType) :
    CompRes Bool :=
  match c.parser.current with
  | none => .panicked "expected current token"
  | some t =>
    if t.token_type = tt then (Compiler.advanceC fuel c).discard.bind fun _ c => .ok true c
    else .ok false c

/-- Compiler::emit_byte: write one byte paired with the previous token's
line. -/
def Compiler.emit_byte (c : Compiler) (byte : Nat) : CompRes Unit :=
  match c.parser.previous with
  | none => .panicked "expected previous chunk"
  | some t => .ok () { c with compiling_chunk := c.compiling_chunk.write byte t.line }

def Compiler.emit_bytes (c : Compiler) (b1 b2 : Nat) : CompRes Unit :=
  (c.emit_byte b1).bind fun _ c => c.emit_byte b2

/-- Compiler::emit_constant: add to the pool and emit the two-byte load; a
full pool propagates the add_constant error as a Rust Err without emitting
anything. -/
def Compiler.emit_constant (c : Compiler) (v : Value) : CompRes Unit :=
  match c.compiling_chunk.add_constant v with
  | .error m => .rustErr m c
  | .ok (idx, ch) => Compiler.emit_bytes { c with compiling_chunk := ch } OpCode.constant.toU8 idx

def Compiler.emit_return (c : Compiler) : CompRes Unit :=
  c.emit_byte OpCode.ret.toU8

/-- Numeric-literal parsing, modelling str::parse::<f64> on the digit/dot
lexemes the scanner produces (exact in the fraction model). -/
def digitsVal (cs : List Char) : Nat :=
  cs.foldl (fun acc c => acc * 10 + (c.toNat - 48)) 0

def parse_f64 (s : String) : Option F64 :=
  let cs := s.data
  let ip := cs.takeWhile isAsciiDigit
  let rest := cs.dropWhile isAsciiDigit
  if ip.isEmpty then none
  else
    match rest with
    | [] => some ⟨(digitsVal ip : Int), 1⟩
    | '.' :: fs =>
      if !fs.isEmpty && fs.all isAsciiDigit then
        some ⟨(digitsVal ip * 10 ^ fs.length + digitsVal fs : Int), 10 ^ fs.length⟩
      else none
    | _ => none

/-- Compiler::number: read the previous token's lexeme as a number (expect
panics on failure) and emit the constant, discarding a pool-overflow Err. -/
def Compiler.number (c : Compiler) (_can_assign : Bool) : CompRes Unit :=
  match c.parser.previous with
  | none => .panicked "expected previous chunk"
  | some t =>
    match parse_f64 t.lexeme with
    | none => .panicked "unable to convert token to float"
    | some v => (Compiler.emit_constant c (.number v)).discard

/-- Compiler::string: strip the surrounding quotes from the lexeme and emit
the string constant, discarding a pool-overflow Err. -/
def Compiler.stringC (c : Compiler) (_can_assign : Bool) : CompRes Unit :=
  match c.parser.previous with
  | none => .panicked "expected previous chunk"
  | some t =>
    let value := String.mk ((t.lexeme.data.drop 1).dropLast)
    (Compiler.emit_constant c (Value.from_string value)).discard

/-- Compiler::literal: emit the single byte for false/nil/true. -/
def Compiler.literal (c : Compiler) (_can_assign : Bool) : CompRes Unit :=
  match c.parser.previous with
  | none => .panicked "expected previous chunk"
  | some t =>
    match t.token_type with
    | .falseKw => c.emit_byte OpCode.falseOp.toU8
    | .nilKw => c.emit_byte OpCode.nilOp.toU8
    | .trueKw => c.emit_byte OpCode.trueOp.toU8
    | _ => .panicked "unreachable"

/-- Compiler::parse_variable: consume the identifier (propagating the Err) and
add its lexeme to the constant pool, returning the pool index. -/
def Compiler.parse_variable (fuel : Nat) (c : Compiler) : CompRes Nat :=
  (Compiler.consume fuel c .identifier "expected variable name").bind fun _ c =>
  match c.parser.previous with
  | none => .panicked "unwrap on None previous"
  | some t =>
    match c.compiling_chunk.add_constant (Value.from_string t.lexeme) with
    | .error m => .rustErr m c
    | .ok (idx, ch) => .ok idx { c with compiling_chunk := ch }

/-- Compiler::define_variable. -/
def Compiler.define_variable (c : Compiler) (global : Nat) : CompRes Unit :=
  c.emit_bytes OpCode.defineGlobal.toU8 global

/-- Loop body of Compiler::synchronize: discard tokens until a statement
boundary. -/
def Compiler.syncLoop : Nat → Compiler → CompRes Unit
  | 0, _ => .fuelOut
  | fuel + 1, c =>
    match c.parser.current with
    | none => .panicked "unwrap on None current"
    | some cur =>
      match cur.token_type with
      | .eof | .classKw | .funKw | .varKw | .forKw | .ifKw | .whileKw | .printKw
      | .returnKw => .ok () c
      | _ =>
        match c.parser.previous with
        | none => .panicked "unwrap on None previous"
        | some prev =>
          if prev.token_type = .semicolon then .ok () c
          else (Compiler.advanceC fuel c).discard.bind fun _ c => Compiler.syncLoop fuel c

/-- Compiler::synchronize: leave panic mode, then discard to a boundary. -/
def Compiler.synchronize (fuel : Nat) (c : Compiler) : CompRes Unit :=
  Compiler.syncLoop fuel { c with parser := { c.parser with panic_mode := false } }

/-- Pending activation of one of the mutually recursive compiler functions.
The Rust functions are defunctionalized into the single fuel-indexed
interpreter runAct (one constructor per function) so that kernel reduction of
concrete compilations stays tractable; the per-function definitions below are
direct wrappers and carry the per-function contracts. -/
inductive Act where
  | declaration
  | statement
  | var_declaration
  | print_statement
  | expression_statement
  | expression
  | parse_precedence (prec : Precedence)
  | infixLoop (prec : Precedence) (can_assign : Bool)
  | dispatchAction (pf : ParseFn) (can_assign : Bool)
  | grouping (can_assign : Bool)
  | unary (can_assign : Bool)
  | binary (can_assign : Bool)
  | variableC (can_assign : Bool)
  | named_variable (name : Token) (can_assign : Bool)
deriving Repr, DecidableEq

/-- Step interpreter of the mutually recursive compiler functions, translated
arm by arm from compiler.rs.
declaration: var declaration or statement, then synchronize when panic mode
is set.
var_declaration: parse_variable's Result is unwrapped (an Err panics), then
the initializer or a nil push, the semicolon (Result discarded), then the
define-global emission.
statement: print statement or expression statement.
print_statement / expression_statement: expression, semicolon (Result
discarded), then print respectively pop.
grouping: expression, then the closing paren (Result discarded).
unary: remember the operator, parse the operand at unary precedence, emit
negate or not.
binary: remember the operator, parse the right operand one level above the
operator's precedence, then emit the opcode(s) — the less arm emits the
equal opcode, translated faithfully from the source.
variableC/named_variable: add the name to the pool (unwrap panics on
overflow); in assignment position compile the right-hand side and emit
set-global, else emit get-global.
dispatchAction: the match on the rule-table action in parse_precedence.
infixLoop: while the current token's infix precedence is at least the
requested one, consume it and run its infix action.
parse_precedence: advance, run the prefix action of the previous token (or
record "expected expression"), reject a stray assignment, run the infix
loop. -/
def Compiler.runAct : Nat → Act → Compiler → CompRes Unit
  | 0, _, _ => .fuelOut
  | fuel + 1, act, c =>
    match act with
    | .declaration =>
      (Compiler.current_token_type_is fuel c .varKw).bind fun b c =>
      (if b then Compiler.runAct fuel .var_declaration c
       else Compiler.runAct fuel .statement c).bind fun _ c =>
      if c.parser.panic_mode then Compiler.synchronize fuel c else .ok () c
    | .var_declaration =>
      (Compiler.parse_variable fuel c).unwrapR fun global c =>
      (Compiler.current_token_type_is fuel c .equal).bind fun b c =>
      (if b then Compiler.runAct fuel .expression c
       else c.emit_byte OpCode.nilOp.toU8).bind fun _ c =>
      (Compiler.consume fuel c .semicolon
        "expected ';' after variable declaration").discard.bind fun _ c =>
      Compiler.define_variable c global
    | .statement =>
      (Compiler.current_token_type_is fuel c .printKw).bind fun b c =>
      if b then Compiler.runAct fuel .print_statement c
      else Compiler.runAct fuel .expression_statement c
    | .print_statement =>
      (Compiler.runAct fuel .expression c).bind fun _ c =>
      (Compiler.consume fuel c .semicolon "expect ';' after value.").discard.bind fun _ c =>
      c.emit_byte OpCode.print.toU8
    | .expression_statement =>
      (Compiler.runAct fuel .expression c).bind fun _ c =>
      (Compiler.consume fuel c .semicolon "expect ';' after value.").discard.bind fun _ c =>
      c.emit_byte OpCode.pop.toU8
    | .expression => Compiler.runAct fuel (.parse_precedence .assignment) c
    | .grouping _can_assign =>
      (Compiler.runAct fuel .expression c).bind fun _ c =>
      (Compiler.consume fuel c .rightParen "expected ')' after expression)").discard
    | .unary _can_assign =>
      match c.parser.previous with
      | none => .panicked "expected previous token"
      | some t =>
        (Compiler.runAct fuel (.parse_precedence .unary) c).bind fun _ c =>
        match t.token_type with
        | .minus => c.emit_byte OpCode.negate.toU8
        | .bang => c.emit_byte OpCode.notOp.toU8
        | _ => .panicked "unreachable"
    | .binary _can_assign =>
      match c.parser.previous with
      | none => .panicked "expected previous token"
      | some t =>
        let rule := parse_rule t.token_type
        (Compiler.runAct fuel (.parse_precedence rule.precedence.next) c).bind fun _ c =>
        match t.token_type with
        | .plus => c.emit_byte OpCode.add.toU8
        | .minus => c.emit_byte OpCode.subtract.toU8
        | .star => c.emit_byte OpCode.multiply.toU8
        | .slash => c.emit_byte OpCode.divide.toU8
        | .bangEqual => c.emit_bytes OpCode.equal.toU8 OpCode.notOp.toU8
        | .equal => c.emit_byte OpCode.equal.toU8
        | .equalEqual => c.emit_byte OpCode.equal.toU8
        | .greater => c.emit_byte OpCode.greater.toU8
        | .greaterEqual => c.emit_bytes OpCode.less.toU8 OpCode.notOp.toU8
        | .less => c.emit_byte OpCode.equal.toU8
        | .lessEqual => c.emit_bytes OpCode.greater.toU8 OpCode.notOp.toU8
        | _ => .panicked "unreachable"
    | .variableC can_assign =>
      match c.parser.previous with
      | none => .panicked "unwrap on None previous"
      | some t => Compiler.runAct fuel (.named_variable t can_assign) c
    | .named_variable name can_assign =>
      match c.compiling_chunk.add_constant (Value.from_string name.lexeme) with
      | .error m => .panicked m
      | .ok (constant, ch) =>
        let c := { c with compiling_chunk := ch }
        if can_assign then
          (Compiler.current_token_type_is fuel c .equal).bind fun b c =>
          if b then
            (Compiler.runAct fuel .expression c).bind fun _ c =>
            c.emit_bytes OpCode.setGlobal.toU8 constant
          else c.emit_bytes OpCode.getGlobal.toU8 constant
        else c.emit_bytes OpCode.getGlobal.toU8 constant
    | .dispatchAction pf can_assign =>
      match pf with
      | .none => Compiler.errorP c "expected expression"
      | .number => Compiler.number c can_assign
      | .literal => Compiler.literal c can_assign
      | .string => Compiler.stringC c can_assign
      | .variableFn => Compiler.runAct fuel (.variableC can_assign) c
      | .binary => Compiler.runAct fuel (.binary can_assign) c
      | .unary => Compiler.runAct fuel (.unary can_assign) c
      | .grouping => Compiler.runAct fuel (.grouping can_assign) c
    | .infixLoop prec can_assign =>
      match c.parser.current with
      | none => .panicked "unwrap on None current"
      | some cur =>
        let current_rule := parse_rule cur.token_type
        if prec.gtP current_rule.precedence then .ok () c
        else
          (Compiler.advanceC fuel c).discard.bind fun _ c =>
          (Compiler.runAct fuel (.dispatchAction current_rule.infixFn can_assign) c).bind
            fun _ c =>
          Compiler.runAct fuel (.infixLoop prec can_assign) c
    | .parse_precedence prec =>
      (Compiler.advanceC fuel c).discard.bind fun _ c =>
      match c.parser.previous with
      | none => .panicked "unwrap on None previous"
      | some prev =>
        let prefix_rule := parse_rule prev.token_type
        let can_assign := prec.leP .assignment
        (Compiler.runAct fuel (.dispatchAction prefix_rule.prefixFn can_assign) c).bind
          fun _ c =>
        (if can_assign then
          (Compiler.current_token_type_is fuel c .equal).bind fun b c =>
          if b then Compiler.errorP c "invalid assignment target" else .ok () c
        else .ok () c).bind fun _ c =>
        Compiler.runAct fuel (.infixLoop prec can_assign) c

/-- Compiler::declaration. -/
def Compiler.declaration (fuel : Nat) (c : Compiler) : CompRes Unit :=
  Compiler.runAct fuel .declaration c

/-- Compiler::statement. -/
def Compiler.statement (fuel : Nat) (c : Compiler) : CompRes Unit :=
  Compiler.runAct fuel .statement c

/-- Compiler::var_declaration. -/
def Compiler.var_declaration (fuel : Nat) (c : Compiler) : CompRes Unit :=
  Compiler.runAct fuel .var_declaration c

/-- Compiler::print_statement. -/
def Compiler.print_statement (fuel : Nat) (c : Compiler) : CompRes Unit :=
  Compiler.runAct fuel .print_statement c

/-- Compiler::expression_statement. -/
def Compiler.expression_statement (fuel : Nat) (c : Compiler) : CompRes Unit :=
  Compiler.runAct fuel .expression_statement c

/-- Compiler::expression. -/
def Compiler.expression (fuel : Nat) (c : Compiler) : CompRes Unit :=
  Compiler.runAct fuel .expression c

/-- Compiler::parse_precedence. -/
def Compiler.parse_precedence (fuel : Nat) (prec : Precedence) (c : Compiler) :
    CompRes Unit :=
  Compiler.runAct fuel (.parse_precedence prec) c

/-- Compiler::grouping. -/
def Compiler.grouping (fuel : Nat) (c : Compiler) (can_assign : Bool) : CompRes Unit :=
  Compiler.runAct fuel (.grouping can_assign) c

/-- Compiler::unary. -/
def Compiler.unary (fuel : Nat) (c : Compiler) (can_assign : Bool) : CompRes Unit :=
  Compiler.runAct fuel (.unary can_assign) c

/-- Compiler::binary. -/
def Compiler.binary (fuel : Nat) (c : Compiler) (can_assign : Bool) : CompRes Unit :=
  Compiler.runAct fuel (.binary can_assign) c

/-- Compiler::variable. -/
def Compiler.variableC (fuel : Nat) (c : Compiler) (can_assign : Bool) : CompRes Unit :=
  Compiler.runAct fuel (.variableC can_assign) c

/-- Compiler::named_variable. -/
def Compiler.named_variable (fuel : Nat) (c : Compiler) (name : Token)
    (can_assign : Bool) : CompRes Unit :=
  Compiler.runAct fuel (.named_variable name can_assign) c

/-- Main loop of compile: declarations until end-of-input. -/
def compileLoop : Nat → Compiler → CompRes Unit
  | 0, _ => .fuelOut
  | fuel + 1, c =>
    (Compiler.current_token_type_is fuel c .eof).bind fun b c =>
    if b then .ok () c
    else (Compiler.declaration fuel c).bind fun _ c => compileLoop fuel c

/-- Function compile from compiler.rs, kept with the full final compiler state
so that the recorded had-error flag stays observable. The Rust function
returns Ok(chunk) whenever it returns at all: nothing inspects had_error. -/
def compile_full (fuel : Nat) (source : String) : CompRes Unit :=
  let c := Compiler.mkNew source
  (Compiler.advanceC fuel c).bind fun _ c =>
  (compileLoop fuel c).bind fun _ c =>
  Compiler.emit_return c

/-- Function compile as its caller sees it: the Result<Chunk>. -/
def compile (fuel : Nat) (source : String) : CompRes Chunk :=
  match compile_full fuel source with
  | .ok _ c => .ok c.compiling_chunk c
  | .rustErr m c => .rustErr m c
  | .panicked m => .panicked m
  | .fuelOut => .fuelOut

def padLeftZeros (s : String) (w : Nat) : String :=
  String.mk (List.replicate (w - s.length) '0') ++ s

def padLeftSpaces (s : String) (w : Nat) : String :=
  String.mk (List.replicate (w - s.length) ' ') ++ s

def padRightSpaces (s : String) (w : Nat) : String :=
  s ++ String.mk (List.replicate (w - s.length) ' ')

/-- Chunk::disassemble_instruction: the stdout line (newline-terminated, as
println leaves it) written for the instruction at the offset, plus the next
offset; none models a panic (the snapshot's todo! arms for
equal/greater/less, or an out-of-range index). The arms for bytes 14..18 are
modelled from the spec's debug-dump format, since their final source is
missing from the chunk.rs snapshot. The unknown-opcode arm returns the
offset unchanged, faithful to the snapshot. -/
def Chunk.disassemble_instruction (c : Chunk) (offset : Nat) : Option (String × Nat) :=
  match c.code.get? offset, c.lines.get? offset with
  | some instruction, some ln =>
    let head := padLeftZeros (toString offset) 4 ++ " "
    let lineStr :=
      if offset > 0 && c.lines.getD (offset - 1) 0 = ln then "   | "
      else padLeftSpaces (toString ln) 4 ++ " "
    let withOperand (name : String) : Option (String × Nat) :=
      match c.code.get? (offset + 1) with
      | none => none
      | some k =>
        some (head ++ lineStr ++ padRightSpaces name 16 ++ " " ++
          padLeftSpaces (toString k) 4 ++ " '" ++ (c.constants.getD k .nil).display ++
          "'\n", offset + 2)
    match OpCode.try_from instruction with
    | .ok .ret => some (head ++ lineStr ++ "OP_RETURN\n", offset + 1)
    | .ok .negate => some (head ++ lineStr ++ "OP_NEGATE\n", offset + 1)
    | .ok .add => some (head ++ lineStr ++ "OP_ADD\n", offset + 1)
    | .ok .subtract => some (head ++ lineStr ++ "OP_SUBTRACT\n", offset + 1)
    | .ok .multiply => some (head ++ lineStr ++ "OP_MULTIPLY\n", offset + 1)
    | .ok .divide => some (head ++ lineStr ++ "OP_DIVIDE\n", offset + 1)
    | .ok .constant => withOperand "OP_CONSTANT"
    | .ok .nilOp => some (head ++ lineStr ++ "OP_NIL\n", offset + 1)
    | .ok .trueOp => some (head ++ lineStr ++ "OP_TRUE\n", offset + 1)
    | .ok .falseOp => some (head ++ lineStr ++ "OP_FALSE\n", offset + 1)
    | .ok .notOp => some (head ++ lineStr ++ "OP_NOT\n", offset + 1)
    | .ok .equal => none
    | .ok .greater => none
    | .ok .less => none
    | .ok .print => some (head ++ lineStr ++ "OP_PRINT\n", offset + 1)
    | .ok .pop => some (head ++ lineStr ++ "OP_POP\n", offset + 1)
    | .ok .defineGlobal => withOperand "OP_DEFINE_GLOBAL"
    | .ok .getGlobal => withOperand "OP_GET_GLOBAL"
    | .ok .setGlobal => withOperand "OP_SET_GLOBAL"
    | .error _ => some ("unknown opcode " ++ toString instruction ++ "\n", offset)
  | _, _ => none

/-- Outcome of a full chunk disassembly: the stdout lines, or a panic or fuel
exhaustion with the lines written so far. -/
inductive DisRes where
  | lines (ls : List String)
  | dPanic (ls : List String)
  | dFuel (ls : List String)
deriving Repr, DecidableEq

def Chunk.disassembleLoop : Nat → Chunk → Nat → DisRes
  | 0, _, _ => .dFuel []
  | fuel + 1, c, offset =>
    if offset < c.code.length then
      match c.disassemble_instruction offset with
      | none => .dPanic []
      | some (line, offset2) =>
        match Chunk.disassembleLoop fuel c offset2 with
        | .lines ls => .lines (line :: ls)
        | .dPanic ls => .dPanic (line :: ls)
        | .dFuel ls => .dFuel (line :: ls)
    else .lines []

/-- Chunk::disassemble: the header line, then one line per instruction. -/
def Chunk.disassemble (fuel : Nat) (c : Chunk) (header : String) : DisRes :=
  match Chunk.disassembleLoop fuel c 0 with
  | .lines ls => .lines (("== " ++ header ++ " ==\n") :: ls)
  | .dPanic ls => .dPanic (("== " ++ header ++ " ==\n") :: ls)
  | .dFuel ls => .dFuel (("== " ++ header ++ " ==\n") :: ls)

/-- VM state from vm.rs, without the borrowed chunk: instruction pointer,
operand stack (top at the head) and global table (the HashMap is modelled as
an association list; insert overwrites in place or appends). -/
structure VMSt where
  ip : Nat
  stack : List Value
  globals : List (String × Value)
deriving Repr

def globalsInsert (g : List (String × Value)) (k : String) (v : Value) :
    List (String × Value) :=
  if (g.lookup k).isSome then g.map (fun p => if p.1 = k then (k, v) else p)
  else g ++ [(k, v)]

/-- Runtime fault kinds the run loop can return as a Rust Err: the
InterpretError::Runtime of runtime_error, or the decode failure propagated by
the try_into of an unrecognized byte. -/
inductive VMErr where
  | runtime
  | unknownOpCode (n : Nat)
deriving Repr, DecidableEq

/-- Result of one iteration of the run loop body (fetch, decode, execute),
with the stdout writes it performs. -/
inductive StepRes where
  | next (s : VMSt) (out : List String)
  | halt (s : VMSt)
  | fault (e : VMErr) (s : VMSt)
  | panicked (msg : String)
deriving Repr

/-- One iteration of VM::run's loop, translated arm by arm from vm.rs:
fetch the byte at ip (out-of-range is an index panic), advance, decode
(propagating the unknown-opcode Err), execute. Binary operators pop the
right operand then the left (unwrap panics on a short stack); negate
silently skips on an empty stack (if-let with no else); define-global
binds then pops; set-global requires the name to exist, then binds and
pops. -/
def VM.execInstr (ch : Chunk) (s0 : VMSt) : StepRes :=
  match ch.code.get? s0.ip with
  | none => .panicked "index out of bounds"
  | some instruction =>
    let s := { s0 with ip := s0.ip + 1 }
    match OpCode.try_from instruction with
    | .error (.unknownOpCode n) => .fault (.unknownOpCode n) s
    | .ok op =>
      match op with
      | .ret => .halt s
      | .negate =>
        match s.stack with
        | [] => .next s []
        | v :: rest =>
          match v.negV with
          | .ok value => .next { s with stack := value :: rest } []
          | .error _ => .fault .runtime { s with stack := rest }
      | .add =>
        match s.stack with
        | b :: a :: rest =>
          match a.addV b with
          | .ok sum => .next { s with stack := sum :: rest } []
          | .error _ => .fault .runtime { s with stack := rest }
        | _ => .panicked "unwrap on empty stack"
      | .subtract =>
        match s.stack with
        | b :: a :: rest =>
          match a.subV b with
          | .ok diff => .next { s with stack := diff :: rest } []
          | .error _ => .fault .runtime { s with stack := rest }
        | _ => .panicked "unwrap on empty stack"
      | .multiply =>
        match s.stack with
        | b :: a :: rest =>
          match a.mulV b with
          | .ok prod => .next { s with stack := prod :: rest } []
          | .error _ => .fault .runtime { s with stack := rest }
        | _ => .panicked "unwrap on empty stack"
      | .divide =>
        match s.stack with
        | b :: a :: rest =>
          match a.divV b with
          | .ok quot => .next { s with stack := quot :: rest } []
          | .error _ => .fault .runtime { s with stack := rest }
        | _ => .panicked "unwrap on empty stack"
      | .constant =>
        match ch.code.get? s.ip with
        | none => .panicked "index out of bounds"
        | some idx =>
          .next { s with ip := s.ip + 1, stack := ch.read_constant idx :: s.stack } []
      | .nilOp => .next { s with stack := .nil :: s.stack } []
      | .trueOp => .next { s with stack := .bool true :: s.stack } []
      | .falseOp => .next { s with stack := .bool false :: s.stack } []
      | .notOp =>
        match s.stack with
        | v :: rest => .next { s with stack := .bool v.is_falsey :: rest } []
        | [] => .panicked "unwrap on empty stack"
      | .equal =>
        match s.stack with
        | b :: a :: rest => .next { s with stack := .bool (a.eqB b) :: rest } []
        | _ => .panicked "unwrap on empty stack"
      | .greater =>
        match s.stack with
        | b :: a :: rest => .next { s with stack := .bool (a.gtB b) :: rest } []
        | _ => .panicked "unwrap on empty stack"
      | .less =>
        match s.stack with
        | b :: a :: rest => .next { s with stack := .bool (a.ltB b) :: rest } []
        | _ => .panicked "unwrap on empty stack"
      | .print =>
        match s.stack with
        | a :: rest => .next { s with stack := rest } [a.display ++ "\n"]
        | [] => .panicked "unwrap on empty stack"
      | .pop =>
        match s.stack with
        | _ :: rest => .next { s with stack := rest } []
        | [] => .next s []
      | .defineGlobal =>
        match ch.code.get? s.ip with
        | none => .panicked "index out of bounds"
        | some idx =>
          let name := ch.read_constant idx
          let s := { s with ip := s.ip + 1 }
          match s.stack with
          | [] => .panicked "unwrap on empty stack"
          | top :: rest =>
            .next { s with globals := globalsInsert s.globals name.display top,
                           stack := rest } []
      | .getGlobal =>
        match ch.code.get? s.ip with
        | none => .panicked "index out of bounds"
        | some idx =>
          let name := ch.read_constant idx
          let s := { s with ip := s.ip + 1 }
          match s.globals.lookup name.display with
          | some value => .next { s with stack := value :: s.stack } []
          | none => .fault .runtime s
      | .setGlobal =>
        match ch.code.get? s.ip with
        | none => .panicked "index out of bounds"
        | some idx =>
          let name := ch.read_constant idx
          let s := { s with ip := s.ip + 1 }
          if (s.globals.lookup name.display).isNone then .fault .runtime s
          else
            match s.stack with
            | [] => .panicked "unwrap on empty stack"
            | top :: rest =>
              .next { s with globals := globalsInsert s.globals name.display top,
                             stack := rest } []

/-- Outcome of the run loop with the stdout writes made along the way. -/
inductive RunRes where
  | ok (s : VMSt) (out : List String)
  | fault (e : VMErr) (s : VMSt) (out : List String)
  | panicked (msg : String) (out : List String)
  | fuelOut (out : List String)
deriving Repr

def RunRes.withOut (pre : List String) : RunRes → RunRes
  | .ok s o => .ok s (pre ++ o)
  | .fault e s o => .fault e s (pre ++ o)
  | .panicked m o => .panicked m (pre ++ o)
  | .fuelOut o => .fuelOut (pre ++ o)

/-- Stack line printed by the execution tracer: the Vec is printed bottom
first. -/
def traceStackLine (s : VMSt) : String :=
  "          " ++ String.join (s.stack.reverse.map (fun v => "[ " ++ v.display ++ " ]")) ++
    "\n"

/-- Loop of VM::run. When the tracing flag is on, each iteration first prints
the stack and the disassembly of the instruction about to execute (whose todo!
arms panic); then the loop body runs. -/
def VM.runLoop : Nat → Chunk → Bool → VMSt → RunRes
  | 0, _, _, _ => .fuelOut []
  | fuel + 1, ch, trace, s =>
    let tr : Option (List String) :=
      if trace then
        match ch.disassemble_instruction s.ip with
        | none => none
        | some (line, _) => some [traceStackLine s, line]
      else some []
    match tr with
    | none => .panicked "todo in disassemble_instruction" [traceStackLine s]
    | some pre =>
      match VM.execInstr ch s with
      | .next s2 o => (VM.runLoop fuel ch trace s2).withOut (pre ++ o)
      | .halt s2 => .ok s2 pre
      | .fault e s2 => .fault e s2 pre
      | .panicked m => .panicked m pre

/-- VM::run: always disassemble the whole chunk to stdout first (not gated by
the tracing flag), then execute the loop. -/
def VM.run (fuel : Nat) (trace : Bool) (ch : Chunk) (s : VMSt) : RunRes :=
  match Chunk.disassemble fuel ch "RUN" with
  | .lines ls => (VM.runLoop fuel ch trace s).withOut ls
  | .dPanic ls => .panicked "todo in disassemble_instruction" ls
  | .dFuel ls => .fuelOut ls

/-- Result of VM::interpret: compile failure (InterpretError::Compile) or the
run's outcome, plus the panic/fuel cases of the model. -/
inductive InterpretRes where
  | completed (r : RunRes)
  | compileErr
  | panicked (msg : String)
  | fuelOut
deriving Repr

/-- VM::interpret: compile the source — a compile Err reports
InterpretError::Compile without running — then execute the chunk on a fresh
VM (empty stack, empty global table, ip 0). -/
def VM.interpret (fuel : Nat) (trace : Bool) (source : String) : InterpretRes :=
  match compile fuel source with
  | .ok ch _ => .completed (VM.run fuel trace ch ⟨0, [], []⟩)
  | .rustErr _ _ => .compileErr
  | .panicked m => .panicked m
  | .fuelOut => .fuelOut

/-- Stdout writes of a run outcome, each entry one newline-terminated line. -/
def RunRes.out : RunRes → List String
  | .ok _ o => o
  | .fault _ _ o => o
  | .panicked _ o => o
  | .fuelOut o => o

theorem RunRes.out_withOut (pre : List String) (r : RunRes) :
    (r.withOut pre).out = pre ++ r.out := by
  cases r <;> rfl

/-- Iterate the loop body n times while it continues. -/
def VM.stepN : Nat → Chunk → VMSt → Option VMSt
  | 0, _, s => some s
  | n + 1, ch, s =>
    match VM.execInstr ch s with
    | .next s2 _ => VM.stepN n ch s2
    | _ => none

/-- Observation: the bytecode of a compile that returned Ok. -/
def compiledCode (fuel : Nat) (src : String) : List Nat :=
  match compile fuel src with
  | .ok ch _ => ch.code
  | _ => []

/-- Observation: the constant pool of a compile that returned Ok. -/
def compiledConstants (fuel : Nat) (src : String) : List Value :=
  match compile fuel src with
  | .ok ch _ => ch.constants
  | _ => []

/-- Observation: the recorded had-error flag of a compile whose Rust result
was Ok (none when the Rust function did not return Ok). -/
def compileHadError (fuel : Nat) (src : String) : Option Bool :=
  match compile_full fuel src with
  | .ok _ c => some c.parser.had_error
  | _ => none

/-- Observation: the operand stack after n loop-body steps of the compiled
chunk on a fresh VM. -/
def stackAfter (fuel : Nat) (src : String) (n : Nat) : Option (List Value) :=
  match compile fuel src with
  | .ok ch _ => (VM.stepN n ch ⟨0, [], []⟩).map (fun s => s.stack)
  | _ => none

/-- Observation: the stdout writes of the execution loop (tracing off) on the
compiled chunk — the run's output beyond the pre-run disassembly dump. -/
def loopOut (fuel : Nat) (src : String) : List String :=
  match compile fuel src with
  | .ok ch _ => (VM.runLoop fuel ch false ⟨0, [], []⟩).out
  | _ => []

/-- Compiler state poised inside Compiler::number with a full constant pool:
the previous token is the numeric literal about to be emitted, the pool
already holds 256 constants, and no error is recorded. -/
def fullPoolCompiler : Compiler :=
  ⟨⟨some (Token.new .semicolon ";" 1), some (Token.new .number "7" 1), false, false⟩,
   Scanner.mkNew "", ⟨[], List.replicate 256 (.number ⟨0, 1⟩), []⟩⟩

/-- C1: the source "1" records a compile error (the missing semicolon sets the
had-error flag), yet compile returns Ok and interpret executes the produced
chunk to a successful Return (final ip 4, past every byte), writing the
disassembly dump — compile never consults the had-error flag, so the claimed
mutual exclusion of success and recorded errors fails on the code. -/
theorem compile_ignores_had_error :
    compileHadError 100 "1" = some true ∧
    VM.interpret 100 false "1" =
      .completed (.ok ⟨4, [], []⟩
        ["== RUN ==\n", "0000    1 OP_CONSTANT         0 '1'\n",
         "0002    | OP_POP\n", "0003    | OP_RETURN\n"]) :=
  ⟨rfl, rfl⟩

/-- C2 counterexample: compiling "(-1 + 2) * 3 - -4" does not produce the
claimed opcode sequence constant 0, negate, constant 1, add, constant 2,
multiply, constant 3, negate, subtract, return: a pop sits between subtract
and return. -/
theorem golden_sequence_as_claimed_fails :
    compiledCode 100 "(-1 + 2) * 3 - -4" ≠
      [OpCode.constant.toU8, 0, OpCode.negate.toU8, OpCode.constant.toU8, 1,
       OpCode.add.toU8, OpCode.constant.toU8, 2, OpCode.multiply.toU8,
       OpCode.constant.toU8, 3, OpCode.negate.toU8, OpCode.subtract.toU8,
       OpCode.ret.toU8] := by
  have h : compiledCode 100 "(-1 + 2) * 3 - -4" =
      [1, 0, 5, 1, 1, 7, 1, 2, 9, 1, 3, 5, 8, 15, 0] := rfl
  rw [h]
  simp [OpCode.toU8]

/-- C2 amended: compiling "(-1 + 2) * 3 - -4" produces exactly constant 0,
negate, constant 1, add, constant 2, multiply, constant 3, negate, subtract,
pop, return — the pop emitted by the expression-statement rule — with the
constant pool holding the numbers 1, 2, 3, 4 in order. -/
theorem golden_sequence :
    compiledCode 100 "(-1 + 2) * 3 - -4" =
      [OpCode.constant.toU8, 0, OpCode.negate.toU8, OpCode.constant.toU8, 1,
       OpCode.add.toU8, OpCode.constant.toU8, 2, OpCode.multiply.toU8,
       OpCode.constant.toU8, 3, OpCode.negate.toU8, OpCode.subtract.toU8,
       OpCode.pop.toU8, OpCode.ret.toU8] ∧
    compiledConstants 100 "(-1 + 2) * 3 - -4" =
      [.number ⟨1, 1⟩, .number ⟨2, 1⟩, .number ⟨3, 1⟩, .number ⟨4, 1⟩] :=
  ⟨rfl, rfl⟩

/-- C3: the binary rule compiles the less token to the equal opcode (byte 11,
not the less opcode 13), so executing the compiled "1 < 2;" leaves
Bool(1 == 2) = false on the stack after the comparison instruction, although
1 < 2 numerically — the claimed Bool(left < right) semantics fails on the
compiler, while the VM's own less opcode (exercised nowhere by the compiler's
less arm) would have computed it. -/
theorem less_compiles_to_equal :
    compiledCode 100 "1 < 2;" =
      [OpCode.constant.toU8, 0, OpCode.constant.toU8, 1, OpCode.equal.toU8,
       OpCode.pop.toU8, OpCode.ret.toU8] ∧
    stackAfter 100 "1 < 2;" 3 = some [.bool false] ∧
    F64.cmp ⟨1, 1⟩ ⟨2, 1⟩ = .lt ∧
    Value.ltB (.number ⟨1, 1⟩) (.number ⟨2, 1⟩) = true :=
  ⟨rfl, rfl, rfl, rfl⟩

/-- C4: executing set-global on a name present in the table overwrites the
entry with the stack top but then pops it — the stack shrinks by one and the
assigned value is gone, contradicting the claimed leave-on-stack behavior
(the instruction body ends in the same pop as define-global). -/
theorem set_global_pops :
    VM.execInstr ⟨[OpCode.setGlobal.toU8, 0], [Value.from_string "a"], [1, 1]⟩
        ⟨0, [.number ⟨5, 1⟩], [("a", .number ⟨1, 1⟩)]⟩ =
      .next ⟨2, [], [("a", .number ⟨5, 1⟩)]⟩ [] :=
  rfl

/-- C5: a 257th constant does produce the dedicated "too many constants"
error inside add_constant, but Compiler::number drops that error on the
floor: on a full pool the compiler state is returned entirely unchanged — no
had-error flag, no emitted bytes, no diagnostic — so compilation continues
and reports success instead of failing. fullPoolCompiler holds a number token
and a chunk whose pool already has 256 constants. -/
theorem constant_overflow_swallowed :
    Chunk.add_constant ⟨[], List.replicate 256 (.number ⟨0, 1⟩), []⟩ (.number ⟨7, 1⟩) =
      .error "too many constants in this chunk" ∧
    Compiler.emit_constant fullPoolCompiler (.number ⟨7, 1⟩) =
      .rustErr "too many constants in this chunk" fullPoolCompiler ∧
    Compiler.number fullPoolCompiler true = .ok () fullPoolCompiler ∧
    fullPoolCompiler.parser.had_error = false :=
  ⟨rfl, rfl, rfl, rfl⟩

/-- C7: compiling and running "var a = 1; a = a + 1; print a;" succeeds with
no recorded compile error; the execution loop's stdout (tracing off) is
exactly the single print write "2\n", and the final global table maps a to
the number 2. -/
theorem globals_program :
    compileHadError 200 "var a = 1; a = a + 1; print a;" = some false ∧
    loopOut 200 "var a = 1; a = a + 1; print a;" = ["2\n"] ∧
    (match VM.interpret 200 false "var a = 1; a = a + 1; print a;" with
     | .completed (.ok s _) => some s.globals
     | _ => none) = some [("a", .number ⟨2, 1⟩)] :=
  ⟨rfl, rfl, rfl⟩

/-- C6: executing set-global on a name absent from the global table aborts the
run with the runtime error and leaves the global table (and the stack) exactly
unchanged: the early Err return of runtime_error precedes the insert, so no
entry is created or modified, and the loop propagates the fault, ending the
run. -/
theorem set_global_undefined (name : String) (g : List (String × Value))
    (stk : List Value) (fuel : Nat) (h : g.lookup name = none) :
    VM.execInstr ⟨[OpCode.setGlobal.toU8, 0], [Value.from_string name], [1, 1]⟩
        ⟨0, stk, g⟩ = .fault .runtime ⟨2, stk, g⟩ ∧
    VM.runLoop (fuel + 1) ⟨[OpCode.setGlobal.toU8, 0], [Value.from_string name], [1, 1]⟩
        false ⟨0, stk, g⟩ = .fault .runtime ⟨2, stk, g⟩ [] := by
  have hstep : VM.execInstr ⟨[OpCode.setGlobal.toU8, 0], [Value.from_string name], [1, 1]⟩
      ⟨0, stk, g⟩ =
      if (g.lookup name).isNone then .fault .runtime ⟨2, stk, g⟩
      else
        match stk with
        | [] => .panicked "unwrap on empty stack"
        | top :: rest => .next ⟨2, rest, globalsInsert g name top⟩ [] := rfl
  have h1 : VM.execInstr ⟨[OpCode.setGlobal.toU8, 0], [Value.from_string name], [1, 1]⟩
      ⟨0, stk, g⟩ = .fault .runtime ⟨2, stk, g⟩ := by
    rw [hstep, h]; rfl
  refine ⟨h1, ?_⟩
  simp only [VM.runLoop, h1]; rfl

/-- Witness for C6 at the name x, the empty table and the empty stack. -/
theorem set_global_undefined_witness :
    VM.execInstr ⟨[OpCode.setGlobal.toU8, 0], [Value.from_string "x"], [1, 1]⟩
        ⟨0, [], []⟩ = .fault .runtime ⟨2, [], []⟩ ∧
    VM.runLoop 1 ⟨[OpCode.setGlobal.toU8, 0], [Value.from_string "x"], [1, 1]⟩
        false ⟨0, [], []⟩ = .fault .runtime ⟨2, [], []⟩ [] :=
  set_global_undefined "x" [] [] 0 rfl

/-- Helper for the run-output analysis: one loop-body step writes nothing to
stdout unless it executes print, in which case it writes exactly the popped
value's display form plus one newline. -/
theorem exec_next_out (ch : Chunk) (s s2 : VMSt) (o : List String)
    (h : VM.execInstr ch s = .next s2 o) :
    o = [] ∨ ∃ v, o = [v.display ++ "\n"] ∧ s.stack = v :: s2.stack := by
  obtain ⟨ip, stk, g⟩ := s
  unfold VM.execInstr at h
  cases hb : ch.code.get? ip with
  | none => rw [hb] at h; cases h
  | some b =>
    simp only [hb] at h
    cases hop : OpCode.try_from b with
    | error e => obtain ⟨n⟩ := e; simp only [hop] at h; cases h
    | ok op =>
      simp only [hop] at h
      cases op
      case ret => cases h
      case negate =>
        cases stk with
        | nil => cases h; exact Or.inl rfl
        | cons v rest =>
          try simp only [] at h
          cases hr : v.negV with
          | ok value => simp only [hr] at h; cases h; exact Or.inl rfl
          | error e => simp only [hr] at h; cases h
      case add =>
        cases stk with
        | nil => cases h
        | cons b1 rest1 =>
          cases rest1 with
          | nil => cases h
          | cons a1 rest2 =>
            try simp only [] at h
            cases hr : a1.addV b1 with
            | ok value => simp only [hr] at h; cases h; exact Or.inl rfl
            | error e => simp only [hr] at h; cases h
      case subtract =>
        cases stk with
        | nil => cases h
        | cons b1 rest1 =>
          cases rest1 with
          | nil => cases h
          | cons a1 rest2 =>
            try simp only [] at h
            cases hr : a1.subV b1 with
            | ok value => simp only [hr] at h; cases h; exact Or.inl rfl
            | error e => simp only [hr] at h; cases h
      case multiply =>
        cases stk with
        | nil => cases h
        | cons b1 rest1 =>
          cases rest1 with
          | nil => cases h
          | cons a1 rest2 =>
            try simp only [] at h
            cases hr : a1.mulV b1 with
            | ok value => simp only [hr] at h; cases h; exact Or.inl rfl
            | error e => simp only [hr] at h; cases h
      case divide =>
        cases stk with
        | nil => cases h
        | cons b1 rest1 =>
          cases rest1 with
          | nil => cases h
          | cons a1 rest2 =>
            try simp only [] at h
            cases hr : a1.divV b1 with
            | ok value => simp only [hr] at h; cases h; exact Or.inl rfl
            | error e => simp only [hr] at h; cases h
      case constant =>
        try simp only [] at h
        cases hc : ch.code.get? (ip + 1) with
        | none => simp only [hc] at h; cases h
        | some idx => simp only [hc] at h; cases h; exact Or.inl rfl
      case nilOp => cases h; exact Or.inl rfl
      case trueOp => cases h; exact Or.inl rfl
      case falseOp => cases h; exact Or.inl rfl
      case notOp =>
        cases stk with
        | nil => cases h
        | cons v rest => cases h; exact Or.inl rfl
      case equal =>
        cases stk with
        | nil => cases h
        | cons b1 rest1 =>
          cases rest1 with
          | nil => cases h
          | cons a1 rest2 => cases h; exact Or.inl rfl
      case greater =>
        cases stk with
        | nil => cases h
        | cons b1 rest1 =>
          cases rest1 with
          | nil => cases h
          | cons a1 rest2 => cases h; exact Or.inl rfl
      case less =>
        cases stk with
        | nil => cases h
        | cons b1 rest1 =>
          cases rest1 with
          | nil => cases h
          | cons a1 rest2 => cases h; exact Or.inl rfl
      case print =>
        cases stk with
        | nil => cases h
        | cons v rest => cases h; exact Or.inr ⟨v, rfl, rfl⟩
      case pop =>
        cases stk with
        | nil => cases h; exact Or.inl rfl
        | cons v rest => cases h; exact Or.inl rfl
      case defineGlobal =>
        try simp only [] at h
        cases hc : ch.code.get? (ip + 1) with
        | none => simp only [hc] at h; cases h
        | some idx =>
          simp only [hc] at h
          cases stk with
          | nil => cases h
          | cons top rest => cases h; exact Or.inl rfl
      case getGlobal =>
        try simp only [] at h
        cases hc : ch.code.get? (ip + 1) with
        | none => simp only [hc] at h; cases h
        | some idx =>
          simp only [hc] at h
          cases hl : List.lookup (ch.read_constant idx).display g with
          | none => simp only [hl] at h; cases h
          | some value => simp only [hl] at h; cases h; exact Or.inl rfl
      case setGlobal =>
        try simp only [] at h
        cases hc : ch.code.get? (ip + 1) with
        | none => simp only [hc] at h; cases h
        | some idx =>
          simp only [hc] at h
          cases hl : List.lookup (ch.read_constant idx).display g with
          | none => simp only [hl] at h; cases h
          | some v0 =>
            simp only [hl] at h
            cases stk with
            | nil => cases h
            | cons top rest => cases h; exact Or.inl rfl

/-- C8 counterexample: running the one-instruction chunk Return — which
contains no print opcode — with tracing off writes two stdout lines, the
unconditional pre-run disassembly dump, so a run's stdout is not limited to
Print-instruction bytes as claimed. -/
theorem run_output_without_print :
    VM.run 50 false ⟨[0], [], [1]⟩ ⟨0, [], []⟩ =
      .ok ⟨1, [], []⟩ ["== RUN ==\n", "0000    1 OP_RETURN\n"] ∧
    (⟨[0], [], [1]⟩ : Chunk).code.contains OpCode.print.toU8 = false :=
  ⟨rfl, rfl⟩

/-- C8 amended: with the tracing flag off, the stdout of a run is the pre-run
disassembly dump of the chunk followed by the execution loop's writes, and the
loop writes only Print-instruction output — a step writes nothing unless it
executes print, in which case it writes the popped value's display form plus
one newline, and every line the loop emits has that shape. -/
theorem run_stdout_shape :
    (∀ (fuel : Nat) (ch : Chunk) (s : VMSt) (ls : List String),
      Chunk.disassemble fuel ch "RUN" = .lines ls →
      VM.run fuel false ch s = (VM.runLoop fuel ch false s).withOut ls) ∧
    (∀ (ch : Chunk) (s s2 : VMSt) (o : List String), VM.execInstr ch s = .next s2 o →
      o = [] ∨ ∃ v, o = [v.display ++ "\n"] ∧ s.stack = v :: s2.stack) ∧
    (∀ (fuel : Nat) (ch : Chunk) (s : VMSt) (e : String),
      e ∈ (VM.runLoop fuel ch false s).out → ∃ v : Value, e = v.display ++ "\n") := by
  refine ⟨?_, fun ch s s2 o h => exec_next_out ch s s2 o h, ?_⟩
  · intro fuel ch s ls hdis
    unfold VM.run
    rw [hdis]
  · intro fuel
    induction fuel with
    | zero =>
      intro ch s e he
      simp [VM.runLoop, RunRes.out] at he
    | succ n ih =>
      intro ch s e he
      have unf : VM.runLoop (n + 1) ch false s =
          match VM.execInstr ch s with
          | .next s2 o => (VM.runLoop n ch false s2).withOut ([] ++ o)
          | .halt s2 => .ok s2 []
          | .fault er s2 => .fault er s2 []
          | .panicked m => .panicked m [] := rfl
      rw [unf] at he
      cases hstep : VM.execInstr ch s with
      | next s2 o =>
        rw [hstep] at he
        rw [RunRes.out_withOut] at he
        simp only [List.nil_append] at he
        rw [List.mem_append] at he
        cases he with
        | inl hin =>
          cases exec_next_out ch s s2 o hstep with
          | inl hnil => rw [hnil] at hin; simp at hin
          | inr hex =>
            obtain ⟨v, ho, _⟩ := hex
            rw [ho] at hin
            simp at hin
            exact ⟨v, hin⟩
        | inr hin => exact ih ch s2 e hin
      | halt s2 => rw [hstep] at he; simp [RunRes.out] at he
      | fault er s2 => rw [hstep] at he; simp [RunRes.out] at he
      | panicked m => rw [hstep] at he; simp [RunRes.out] at he

/-- Witness for C8 amended: the dump decomposition at the Return-only chunk,
and the print characterizations at a print-then-return chunk popping nil. -/
theorem run_stdout_shape_witness :
    VM.run 50 false ⟨[0], [], [1]⟩ ⟨0, [], []⟩ =
      (VM.runLoop 50 ⟨[0], [], [1]⟩ false ⟨0, [], []⟩).withOut
        ["== RUN ==\n", "0000    1 OP_RETURN\n"] ∧
    (([Value.nil.display ++ "\n"] : List String) = [] ∨ ∃ v : Value,
      ([Value.nil.display ++ "\n"] : List String) = [v.display ++ "\n"] ∧
      ([Value.nil] : List Value) = v :: (⟨1, [], []⟩ : VMSt).stack) ∧
    (∃ v : Value, "nil\n" = v.display ++ "\n") := by
  refine ⟨run_stdout_shape.1 50 ⟨[0], [], [1]⟩ ⟨0, [], []⟩ _ rfl, ?_, ?_⟩
  · exact run_stdout_shape.2.1 ⟨[OpCode.print.toU8, OpCode.ret.toU8], [], [1, 1]⟩
      ⟨0, [Value.nil], []⟩ ⟨1, [], []⟩ [Value.nil.display ++ "\n"] rfl
  · exact run_stdout_shape.2.2 2 ⟨[OpCode.print.toU8, OpCode.ret.toU8], [], [1, 1]⟩
      ⟨0, [Value.nil], []⟩ "nil\n"
      (by rw [show (VM.runLoop 2 ⟨[OpCode.print.toU8, OpCode.ret.toU8], [], [1, 1]⟩ false
          ⟨0, [Value.nil], []⟩).out = ["nil\n"] from rfl]; exact List.mem_singleton_self _)

/-- C9: scan_token on a character that cannot start any token hits the todo!
arm of the scanner and panics instead of returning a lexical error value. -/
theorem scan_unrecognized_char_panics :
    Scanner.scan_token 10 (Scanner.mkNew "@") = .panicked "not yet implemented: @" ∧
    Scanner.scan_token 10 (Scanner.mkNew "#") = .panicked "not yet implemented: #" :=
  ⟨rfl, rfl⟩

/-- C10: for every pair of operand values — whatever their tags — the greater
and less opcodes execute without any error, pushing the boolean that the
derived structural partial order returns Some(Greater) respectively
Some(Less); an incomparable pair (partial_cmp none) would yield false by
these very definitions. -/
theorem ordering_never_errors (a b : Value) (rest : List Value)
    (g : List (String × Value)) :
    VM.execInstr ⟨[OpCode.greater.toU8], [], [1]⟩ ⟨0, b :: a :: rest, g⟩ =
      .next ⟨1, .bool (a.gtB b) :: rest, g⟩ [] ∧
    VM.execInstr ⟨[OpCode.less.toU8], [], [1]⟩ ⟨0, b :: a :: rest, g⟩ =
      .next ⟨1, .bool (a.ltB b) :: rest, g⟩ [] ∧
    a.gtB b = (Value.partial_cmp a b == some .gt) ∧
    a.ltB b = (Value.partial_cmp a b == some .lt) :=
  ⟨rfl, rfl, rfl, rfl⟩

end Lox
